import Mathlib

/-!
Shallow embedding of the InshaUnNazm submission/review workflow engine,
translated from the frontend pages that implement it
(`AdminFeaturedPoemPage.tsx`, `AdminPoemCheckingPage.tsx`,
`AdminOpeningVersesPage.tsx`, `ShowcasePage.tsx`, `ViewPoemsPage.tsx`,
`LeaderboardPage.tsx`).  String-union fields of the TypeScript `Poem`
interface (`type`, `language`, `status`, `submissionMethod`) are kept as
`String`, ratings as `Option Rat` (the UI only produces half-star values),
nullable/optional fields as `Option`.
-/

/-- Author record, from the `Author` interface. -/
structure Author where
  id : String
  name : String
deriving DecidableEq, Repr

/-- The frontend `Poem` interface (src/types/poem.ts). -/
structure Poem where
  id : String
  type : String
  content : Option String
  language : String
  submissionMethod : String
  author : Author
  status : String
  approved : Bool
  rating : Option Rat
  fileName : Option String
  audioFileName : Option String
  arazContent : Option String
  inspiredBy : Option String
  featured : Bool
  featuredDate : Option String
  entryDate : String
deriving DecidableEq, Repr

/-- `handleFeaturePoem` in AdminFeaturedPoemPage.tsx (lines 108-129): maps
over the whole poem list, making `featured` true exactly on the target id
and setting `featuredDate` to now there and to null everywhere else. -/
def handleFeaturePoem (poems : List Poem) (poemId : String) (now : String) : List Poem :=
  poems.map fun poem =>
    { poem with
      featured := poem.id == poemId
      featuredDate := if poem.id == poemId then some now else none }

/-- `handleUnfeaturePoem` in AdminFeaturedPoemPage.tsx (lines 131-151): if no
poem is currently recorded as featured the handler returns early; otherwise it
maps over the whole poem list clearing `featured` and `featuredDate`. -/
def handleUnfeaturePoem (featuredPoem : Option Poem) (poems : List Poem) : List Poem :=
  match featuredPoem with
  | none => poems
  | some _ => poems.map fun poem => { poem with featured := false, featuredDate := none }

/-- The unfeature operation as the page invokes it: the `featuredPoem` state
is the poem found with `featured` set (`poems.find(poem => poem.featured)`). -/
def unfeatureOp (poems : List Poem) : List Poem :=
  handleUnfeaturePoem (poems.find? fun p => p.featured) poems

/-- Number of poems carrying the featured flag. -/
def featuredCount (poems : List Poem) : Nat :=
  (poems.filter fun p => p.featured).length

/-- A sequence of admin actions on the featured-poem page. -/
inductive FeatureOp where
  | feature (poemId : String) (now : String)
  | unfeature
deriving DecidableEq, Repr

/-- One admin action on the featured-poem page. -/
def applyFeatureOp (poems : List Poem) : FeatureOp → List Poem
  | .feature poemId now => handleFeaturePoem poems poemId now
  | .unfeature => unfeatureOp poems

/-- A whole sequence of featured-poem page actions, first action first. -/
def applyFeatureOps (poems : List Poem) : List FeatureOp → List Poem
  | [] => poems
  | op :: ops => applyFeatureOps (applyFeatureOp poems op) ops

/-- `handleStatusUpdate` in AdminPoemCheckingPage.tsx (lines 209-228): after
the status PUT succeeds, only the target poem has its `status` replaced; the
spread keeps every other field, and every other poem is untouched.
`markPending` is this handler invoked with `araz_pending`. -/
def handleStatusUpdate (poems : List Poem) (poemId : String) (newStatus : String) : List Poem :=
  poems.map fun poem =>
    if poem.id == poemId then { poem with status := newStatus } else poem

/-- The guard of `openRatingModal` in ShowcasePage.tsx (lines 1223-1233): the
rating modal opens only when the poem is found and approved
(`if (!poem?.approved)` sets an error and returns). -/
def openRatingModalOk (poems : List Poem) (poemId : String) : Bool :=
  match poems.find? fun p => p.id == poemId with
  | some p => p.approved
  | none => false

/-- Modelled from the spec: the backend rate endpoint reached by
`handleRatePoem` (PUT `/api/poems/:id/rate`) is not part of the frontend
sources; per the spec it overwrites any prior rating with the submitted
value, and `handleRatePoem` then refetches the poems. -/
def serverRate (poems : List Poem) (poemId : String) (v : Rat) : List Poem :=
  poems.map fun p =>
    if p.id == poemId then { p with rating := some v } else p

/-- The rate operation as the admin review page performs it: the
`openRatingModal` guard (Conflict on an unapproved or missing poem, state
untouched), then the rating write and refetch. First component is the error
banner, second the resulting poem state. -/
def ratePoem (poems : List Poem) (poemId : String) (v : Rat) : Option String × List Poem :=
  if openRatingModalOk poems poemId then
    (none, serverRate poems poemId v)
  else
    (some "Cannot rate an unapproved poem.", poems)

/-- The half-star values the rating stars can produce
(`handleStarClick(i)` and `handleStarClick(i - 0.5)` for i = 1..5). -/
def halfStarValues : List Rat :=
  [0.5, 1, 1.5, 2, 2.5, 3, 3.5, 4, 4.5, 5]

/-- The `newErrors` record built by `validateForm` in SubmitPoemPage
(ShowcasePage.tsx lines 480-508). -/
structure FormErrors where
  verse : Option String
  content : Option String
  file : Option String
  audio : Option String
deriving DecidableEq, Repr

/-- `validateForm` in SubmitPoemPage (ShowcasePage.tsx lines 480-508).
JavaScript string truthiness is kept: an empty string counts as absent. -/
def validateForm (inspiredByVerse : String) (submissionMethod : String)
    (content : String) (selectedFile : Option String) (audioFile : Option String) :
    FormErrors :=
  let verseErr :=
    if inspiredByVerse.isEmpty then some "Please select a Matla for your Nazm" else none
  let contentErr :=
    if submissionMethod == "manual" && content.trim.isEmpty then
      some "Nazm content is required"
    else if submissionMethod == "manual" && decide (content.trim.length < 20) then
      some "Nazm is too short (minimum 20 characters)"
    else none
  let fileErr :=
    if submissionMethod == "upload" && selectedFile.isNone then
      some "Please select a file to upload"
    else none
  let audioErr :=
    if submissionMethod == "recording" && audioFile.isNone then
      some "Please select an audio file to upload"
    else none
  ⟨verseErr, contentErr, fileErr, audioErr⟩

/-- `handleArazUpload` in AdminPoemCheckingPage.tsx (lines 230-280): early
return when no poem is selected or neither text nor file is supplied; then
the approval guard (error banner, no mutation); then the POST and the local
update setting `arazContent` and `status` on the target poem only.  The
session token check is elided (an authenticated admin session is assumed). -/
def handleArazUpload (poems : List Poem) (selectedPoemId : Option String)
    (arazContent : String) (selectedFile : Option String) : Option String × List Poem :=
  match selectedPoemId with
  | none => (none, poems)
  | some pid =>
    if arazContent.trim.isEmpty && selectedFile.isNone then (none, poems)
    else
      match poems.find? fun p => p.id == pid with
      | some poem =>
        if poem.approved then
          (none, poems.map fun p =>
            if p.id == pid then
              { p with arazContent := some arazContent, status := "araz_done" }
            else p)
        else (some "Cannot upload araz version. Nazm must be approved first.", poems)
      | none => (some "Cannot upload araz version. Nazm must be approved first.", poems)

/-- The `OpeningVerse` interface (src/types/verse.ts). -/
structure OpeningVerse where
  id : String
  text : String
  author : String
  language : String
  day : Int
  createdAt : String
deriving DecidableEq, Repr

/-- The `formData` state of AdminOpeningVersesPage. -/
structure VerseFormData where
  text : String
  author : String
  language : String
  day : Int
deriving DecidableEq, Repr

/-- `handleSubmit` in AdminOpeningVersesPage.tsx (lines 101-155): the two
validation guards run before any request or state change; on success the
verse list is updated (PATCH path) or extended (POST path).  The server echo
of the submitted fields in `response.data` is modelled from the spec: the
backend answering the PATCH/POST is not part of the frontend sources. -/
def handleVerseSubmit (verses : List OpeningVerse) (editingId : Option String)
    (fd : VerseFormData) (newId createdAt : String) : Option String × List OpeningVerse :=
  if fd.text.trim.isEmpty || fd.author.trim.isEmpty then
    (some "Text and Lehen are required.", verses)
  else if fd.day < 1 || fd.day > 10 then
    (some "Day must be between 1 and 10.", verses)
  else
    match editingId with
    | some eid =>
      (none, verses.map fun v =>
        if v.id == eid then
          { v with
            text := fd.text
            author := fd.author
            language := fd.language
            day := fd.day
            createdAt := createdAt }
        else v)
    | none =>
      (none, verses ++ [⟨newId, fd.text, fd.author, fd.language, fd.day, createdAt⟩])

/-- Substring occurrence on character lists, the semantics of the JavaScript
`String.prototype.includes` (an empty needle occurs in every string). -/
def listContainsSub : List Char → List Char → Bool
  | [], needle => needle.isEmpty
  | c :: t, needle => needle.isPrefixOf (c :: t) || listContainsSub t needle

/-- JavaScript `hay.includes(needle)` for strings. -/
def strIncludes (hay needle : String) : Bool :=
  listContainsSub hay.data needle.data

/-- JavaScript `toLowerCase`, written character by character on the
underlying list so that it evaluates by kernel reduction. -/
def jsToLower (s : String) : String :=
  ⟨s.data.map Char.toLower⟩

/-- The predicate of the ViewPoemsPage search filter, applied to the already
lowercased query: content match (JavaScript truthiness: a null or empty
content never matches) or language match. -/
def searchMatch (query : String) (p : Poem) : Bool :=
  (match p.content with
   | some c => if c.isEmpty then false else strIncludes (jsToLower c) query
   | none => false) || strIncludes (jsToLower p.language) query

/-- The search effect in ViewPoemsPage.tsx (lines 112-125): an empty query
keeps every poem; otherwise the query is lowercased once and poems are kept
when their content or language contains it. -/
def searchEffect (poems : List Poem) (searchQuery : String) : List Poem :=
  if searchQuery.isEmpty then poems
  else poems.filter (searchMatch (jsToLower searchQuery))

/-- The filter effect in AdminPoemCheckingPage.tsx (lines 109-125): the
status, type and language dropdowns are applied one after the other, the
sentinel value all disabling the corresponding filter. -/
def filterEffect (poems : List Poem) (statusFilter typeFilter languageFilter : String) :
    List Poem :=
  let f1 := if statusFilter != "all" then poems.filter fun p => p.status == statusFilter else poems
  let f2 := if typeFilter != "all" then f1.filter fun p => p.type == typeFilter else f1
  if languageFilter != "all" then f2.filter fun p => p.language == languageFilter else f2

/-- An entry as the backend returns it (the `ApiPoem` interfaces of the
pages), with the author object flattened. -/
structure ApiPoem where
  id : String
  type : String
  content : Option String
  language : String
  submissionMethod : String
  authorId : String
  authorName : String
  status : String
  approved : Bool
  rating : Option Rat
  fileName : Option String
  audioFileName : Option String
  arazContent : Option String
  inspiredBy : Option String
  featured : Bool
  featuredDate : Option String
  createdAt : String
deriving DecidableEq, Repr

/-- JavaScript `value || undefined` on a nullable string. -/
def jsOrUndefined (o : Option String) : Option String :=
  match o with
  | some s => if s.isEmpty then none else some s
  | none => none

/-- JavaScript `value || fallback` on a nullable string. -/
def jsOrDefault (o : Option String) (d : String) : String :=
  match o with
  | some s => if s.isEmpty then d else s
  | none => d

/-- The `fetchPoems` mapping of AdminReviewPage (ShowcasePage.tsx lines
987-1004): in particular `rating: poem.rating ?? 0`. -/
def adminReviewMap (ap : ApiPoem) : Poem :=
  { id := ap.id, type := ap.type,
    content := some (jsOrDefault ap.content "Uploaded content"),
    language := ap.language, submissionMethod := ap.submissionMethod,
    author := ⟨ap.authorId, ap.authorName⟩, status := ap.status,
    approved := ap.approved, rating := some (ap.rating.getD 0),
    fileName := jsOrUndefined ap.fileName,
    audioFileName := jsOrUndefined ap.audioFileName,
    arazContent := jsOrUndefined ap.arazContent,
    inspiredBy := jsOrUndefined ap.inspiredBy,
    featured := ap.featured, featuredDate := ap.featuredDate,
    entryDate := ap.createdAt }

/-- The `fetchPoems` mapping of AdminPoemCheckingPage (lines 79-96), same
shape as the admin review mapping, `rating: apiPoem.rating ?? 0` included. -/
def adminCheckingMap (ap : ApiPoem) : Poem :=
  { id := ap.id, type := ap.type,
    content := some (jsOrDefault ap.content "Uploaded content"),
    language := ap.language, submissionMethod := ap.submissionMethod,
    author := ⟨ap.authorId, ap.authorName⟩, status := ap.status,
    approved := ap.approved, rating := some (ap.rating.getD 0),
    fileName := jsOrUndefined ap.fileName,
    audioFileName := jsOrUndefined ap.audioFileName,
    arazContent := jsOrUndefined ap.arazContent,
    inspiredBy := jsOrUndefined ap.inspiredBy,
    featured := ap.featured, featuredDate := ap.featuredDate,
    entryDate := ap.createdAt }

/-- The `fetchPoems` mapping of BestPoemPage (LeaderboardPage.tsx lines
246-266): `rating: apiPoem.rating ?? 0`, no `featuredDate` in the object. -/
def bestPoemsMap (ap : ApiPoem) : Poem :=
  { id := ap.id, type := ap.type,
    content := some (jsOrDefault ap.content "Uploaded content"),
    language := ap.language, submissionMethod := ap.submissionMethod,
    author := ⟨ap.authorId, ap.authorName⟩, status := ap.status,
    approved := ap.approved, rating := some (ap.rating.getD 0),
    fileName := jsOrUndefined ap.fileName,
    audioFileName := jsOrUndefined ap.audioFileName,
    arazContent := jsOrUndefined ap.arazContent,
    inspiredBy := jsOrUndefined ap.inspiredBy,
    featured := ap.featured, featuredDate := none,
    entryDate := ap.createdAt }

/-- The filter of the BestPoemPage pipeline:
`poem.rating !== null && poem.rating >= 0`. -/
def bestPoemsKeep (ap : ApiPoem) : Bool :=
  match ap.rating with
  | some r => decide ((0 : Rat) ≤ r)
  | none => false

/-- The comparator of the BestPoemPage sort, descending by rating with a 0
default. -/
def ratingDesc (a b : Poem) : Bool :=
  decide ((b.rating.getD 0) ≤ (a.rating.getD 0))

/-- The whole BestPoemPage fetch pipeline (LeaderboardPage.tsx lines
246-266): filter rated poems, map, sort by rating descending, keep three. -/
def bestPoemsFetch (apiPoems : List ApiPoem) : List Poem :=
  (((apiPoems.filter bestPoemsKeep).map bestPoemsMap).mergeSort ratingDesc).take 3

/-- The displayed star value of the rendering helpers:
`const displayRating = rating ?? 0`. -/
def displayRating (rating : Option Rat) : Rat :=
  rating.getD 0

lemma handleFeaturePoem_map_id (poems : List Poem) (poemId now : String) :
    (handleFeaturePoem poems poemId now).map Poem.id = poems.map Poem.id := by
  simp [handleFeaturePoem]

lemma unfeatureOp_map_id (poems : List Poem) :
    (unfeatureOp poems).map Poem.id = poems.map Poem.id := by
  unfold unfeatureOp handleUnfeaturePoem
  cases poems.find? fun p => p.featured <;> simp

lemma applyFeatureOp_map_id (poems : List Poem) (op : FeatureOp) :
    (applyFeatureOp poems op).map Poem.id = poems.map Poem.id := by
  cases op with
  | feature poemId now => exact handleFeaturePoem_map_id poems poemId now
  | unfeature => exact unfeatureOp_map_id poems

lemma countP_id_le_one (poems : List Poem) (poemId : String)
    (hnd : (poems.map Poem.id).Nodup) :
    (poems.countP fun p => p.id == poemId) ≤ 1 := by
  induction poems with
  | nil => simp
  | cons p t ih =>
    simp only [List.map_cons, List.nodup_cons] at hnd
    rw [List.countP_cons]
    by_cases hp : p.id = poemId
    · have ht : (t.countP fun q => q.id == poemId) = 0 := by
        rw [List.countP_eq_zero]
        intro q hq
        simp only [beq_iff_eq]
        intro hqid
        exact hnd.1 (by simpa [hqid, hp] using List.mem_map_of_mem Poem.id hq)
      simp [ht, hp]
    · simpa [hp] using ih hnd.2

lemma featuredCount_handleFeaturePoem_eq (poems : List Poem) (poemId now : String) :
    featuredCount (handleFeaturePoem poems poemId now)
      = poems.countP fun p => p.id == poemId := by
  rw [featuredCount, ← List.countP_eq_length_filter, handleFeaturePoem, List.countP_map]
  rfl

lemma featuredCount_handleFeaturePoem (poems : List Poem) (poemId now : String)
    (hnd : (poems.map Poem.id).Nodup) :
    featuredCount (handleFeaturePoem poems poemId now) ≤ 1 := by
  rw [featuredCount_handleFeaturePoem_eq]
  exact countP_id_le_one poems poemId hnd

lemma featuredCount_clearAll (poems : List Poem) :
    featuredCount (poems.map fun poem =>
      { poem with featured := false, featuredDate := none }) = 0 := by
  induction poems with
  | nil => rfl
  | cons p t ih =>
    simp only [List.map_cons, featuredCount, List.filter] at ih ⊢
    exact ih

lemma featuredCount_unfeatureOp (poems : List Poem)
    (h : featuredCount poems ≤ 1) :
    featuredCount (unfeatureOp poems) ≤ 1 := by
  unfold unfeatureOp handleUnfeaturePoem
  cases poems.find? fun p => p.featured with
  | none => exact h
  | some fp => simp [featuredCount_clearAll]

/-- C1: every sequence of feature and unfeature page actions preserves the
invariant that at most one poem in the repository view is featured, provided
poem ids are pairwise distinct. -/
theorem featured_invariant_preserved (poems : List Poem) (ops : List FeatureOp)
    (hnd : (poems.map Poem.id).Nodup) (h : featuredCount poems ≤ 1) :
    featuredCount (applyFeatureOps poems ops) ≤ 1 := by
  induction ops generalizing poems with
  | nil => exact h
  | cons op ops ih =>
    have hnd2 : ((applyFeatureOp poems op).map Poem.id).Nodup := by
      rw [applyFeatureOp_map_id]; exact hnd
    have h2 : featuredCount (applyFeatureOp poems op) ≤ 1 := by
      cases op with
      | feature poemId now => exact featuredCount_handleFeaturePoem poems poemId now hnd
      | unfeature => exact featuredCount_unfeatureOp poems h
    exact ih (applyFeatureOp poems op) hnd2 h2

/-- C1 witness: a concrete two-poem state, featuring then unfeaturing. -/
theorem featured_invariant_preserved_witness :
    let a : Author := ⟨"u1", "Ali"⟩
    let p1 : Poem := ⟨"p1", "individual", some "first poem text", "English", "manual",
      a, "araz_pending", true, none, none, none, none, none, false, none, "d1"⟩
    let p2 : Poem := ⟨"p2", "full", some "second poem text", "Urdu", "manual",
      a, "araz_pending", true, none, none, none, none, none, false, none, "d2"⟩
    featuredCount (applyFeatureOps [p1, p2]
      [FeatureOp.feature "p1" "t1", FeatureOp.feature "p2" "t2", FeatureOp.unfeature]) ≤ 1 :=
  featured_invariant_preserved _ _ (by decide) (by decide)

/-- C2: featuring a then featuring b (distinct approved entries) leaves
exactly the entries with id b featured, with featuredDate set to the second
call time, and every other entry unfeatured with a cleared featuredDate. -/
theorem feature_then_feature (poems : List Poem) (a b t1 t2 : String)
    (pa : Poem) (hpa : pa ∈ poems) (hpaid : pa.id = a) (hpaapp : pa.approved = true)
    (pb : Poem) (hpb : pb ∈ poems) (hpbid : pb.id = b) (hpbapp : pb.approved = true)
    (hab : a ≠ b) :
    (∀ p ∈ handleFeaturePoem (handleFeaturePoem poems a t1) b t2,
      p.featured = (p.id == b) ∧ p.featuredDate = (if p.id = b then some t2 else none)) ∧
    (∃ p ∈ handleFeaturePoem (handleFeaturePoem poems a t1) b t2,
      p.id = b ∧ p.featured = true) := by
  constructor
  · intro p hp
    simp only [handleFeaturePoem, List.map_map, List.mem_map, Function.comp] at hp
    obtain ⟨q, hq, rfl⟩ := hp
    by_cases h : q.id = b <;> simp [h]
  · refine ⟨_, List.mem_map_of_mem _ (List.mem_map_of_mem _ hpb), ?_, ?_⟩ <;>
      simp [hpbid]

/-- C2 witness: two concrete approved poems, feature p1 then p2. -/
theorem feature_then_feature_witness :
    let au : Author := ⟨"u1", "Ali"⟩
    let p1 : Poem := ⟨"p1", "individual", some "first poem text", "English", "manual",
      au, "araz_pending", true, none, none, none, none, none, false, none, "d1"⟩
    let p2 : Poem := ⟨"p2", "full", some "second poem text", "Urdu", "manual",
      au, "araz_pending", true, none, none, none, none, none, false, none, "d2"⟩
    (∀ p ∈ handleFeaturePoem (handleFeaturePoem [p1, p2] "p1" "t1") "p2" "t2",
      p.featured = (p.id == "p2") ∧ p.featuredDate = (if p.id = "p2" then some "t2" else none)) ∧
    (∃ p ∈ handleFeaturePoem (handleFeaturePoem [p1, p2] "p1" "t1") "p2" "t2",
      p.id = "p2" ∧ p.featured = true) := by
  intro au p1 p2
  exact feature_then_feature [p1, p2] "p1" "p2" "t1" "t2"
    p1 (by decide) (by decide) (by decide)
    p2 (by decide) (by decide) (by decide)
    (by decide)

/-- C9: the unfeature handler clears `featured` and `featuredDate` on every
entry of the repository view, not only on the holder; afterwards no entry at
all is featured. -/
theorem unfeature_clears_all (poems : List Poem) :
    (∀ p ∈ unfeatureOp poems, p.featured = false) ∧
    ((poems.find? fun p => p.featured).isSome →
      ∀ p ∈ unfeatureOp poems, p.featured = false ∧ p.featuredDate = none) := by
  unfold unfeatureOp handleUnfeaturePoem
  cases hf : poems.find? fun p => p.featured with
  | none =>
    rw [List.find?_eq_none] at hf
    refine ⟨fun p hp => ?_, fun hs => ?_⟩
    · simpa using hf p hp
    · simp at hs
  | some fp =>
    refine ⟨fun p hp => ?_, fun _ p hp => ?_⟩ <;>
    · simp only [List.mem_map] at hp
      obtain ⟨q, hq, rfl⟩ := hp
      simp

/-- C9 witness: a concrete state holding one featured poem. -/
theorem unfeature_clears_all_witness :
    let au : Author := ⟨"u1", "Ali"⟩
    let p1 : Poem := ⟨"p1", "individual", some "first poem text", "English", "manual",
      au, "araz_pending", true, none, none, none, none, none, true, some "t0", "d1"⟩
    let p2 : Poem := ⟨"p2", "full", some "second poem text", "Urdu", "manual",
      au, "araz_pending", true, none, none, none, none, none, false, some "t9", "d2"⟩
    (∀ p ∈ unfeatureOp [p1, p2], p.featured = false ∧ p.featuredDate = none) := by
  intro au p1 p2
  exact (unfeature_clears_all [p1, p2]).2 (by decide)

/-- C4: for a manual submission the content error of `validateForm` is absent
exactly when the trimmed content reaches 20 characters; any shorter trimmed
content (the empty string included) produces a content validation message. -/
theorem manual_content_length (inspiredByVerse content : String)
    (selectedFile audioFile : Option String) :
    (validateForm inspiredByVerse "manual" content selectedFile audioFile).content = none
      ↔ 20 ≤ content.trim.length := by
  unfold validateForm
  by_cases h1 : content.trim.isEmpty
  · have h0 : content.trim.length = 0 := by
      rw [String.isEmpty_iff] at h1
      rw [h1]
      rfl
    simp [h1, h0]
  · by_cases h2 : content.trim.length < 20
    · simp [h1, h2]
    · simp [h1, h2]
      omega

/-- C3: rating goes through the approval guard: on an unapproved poem the
rate operation reports the conflict banner and leaves the poem list
untouched; on an approved poem and a half-star value it succeeds and every
poem with the target id carries the new rating, the old rating overwritten. -/
theorem rate_requires_approved (poems : List Poem) (poemId : String) (v : Rat) (pa : Poem)
    (hfind : (poems.find? fun q => q.id == poemId) = some pa) :
    (pa.approved = false →
      (ratePoem poems poemId v).1 = some "Cannot rate an unapproved poem." ∧
      (ratePoem poems poemId v).2 = poems) ∧
    (pa.approved = true → v ∈ halfStarValues →
      (ratePoem poems poemId v).1 = none ∧
      (∀ q ∈ (ratePoem poems poemId v).2, q.id = poemId → q.rating = some v) ∧
      (∃ q ∈ (ratePoem poems poemId v).2, q.id = poemId ∧ q.rating = some v)) := by
  have hok : openRatingModalOk poems poemId = pa.approved := by
    unfold openRatingModalOk
    rw [hfind]
  constructor
  · intro hap
    unfold ratePoem
    rw [hok, hap]
    simp
  · intro hap _hv
    have hre : ratePoem poems poemId v = (none, serverRate poems poemId v) := by
      unfold ratePoem
      rw [hok, hap]
      simp
    rw [hre]
    refine ⟨rfl, fun q hq hqid => ?_, ?_⟩
    · unfold serverRate at hq
      simp only [List.mem_map] at hq
      obtain ⟨r, hr, rfl⟩ := hq
      cases hb : (r.id == poemId) with
      | true => simp [hb]
      | false =>
        simp only [hb, if_false, Bool.false_eq_true] at hqid ⊢
        exact absurd hqid (by simpa using hb)
    · have hmem : pa ∈ poems := List.mem_of_find?_eq_some hfind
      have hid : pa.id = poemId := by
        have := List.find?_some hfind
        simpa using this
      refine ⟨{ pa with rating := some v }, ?_, by simpa using hid, rfl⟩
      unfold serverRate
      have : (fun p => if p.id == poemId then { p with rating := some v } else p) pa
          = { pa with rating := some v } := by
        simp [hid]
      exact this ▸ List.mem_map_of_mem _ hmem

/-- C3 witness: an unapproved poem rejects a 3.5 rating unchanged; an
approved poem accepts it. -/
theorem rate_requires_approved_witness :
    let au : Author := ⟨"u1", "Ali"⟩
    let pu : Poem := ⟨"p1", "individual", some "an unapproved poem text", "English", "manual",
      au, "araz_pending", false, some 2, none, none, none, none, false, none, "d1"⟩
    let pq : Poem := ⟨"p2", "full", some "an approved poem text", "Urdu", "manual",
      au, "araz_pending", true, some 2, none, none, none, none, false, none, "d2"⟩
    ((ratePoem [pu] "p1" (3.5 : Rat)).1 = some "Cannot rate an unapproved poem." ∧
     (ratePoem [pu] "p1" (3.5 : Rat)).2 = [pu]) ∧
    ((ratePoem [pq] "p2" (3.5 : Rat)).1 = none ∧
     (∀ q ∈ (ratePoem [pq] "p2" (3.5 : Rat)).2, q.id = "p2" → q.rating = some (3.5 : Rat))) := by
  intro au pu pq
  refine ⟨(rate_requires_approved [pu] "p1" (3.5 : Rat) pu (by decide)).1 rfl, ?_⟩
  have h := (rate_requires_approved [pq] "p2" (3.5 : Rat) pq (by decide)).2 rfl (by norm_num [halfStarValues])
  exact ⟨h.1, h.2.1⟩

/-- C6: verse create and update run both validation guards before any request
or state change: a day outside [1,10] or a blank text or attribution yields
an error banner and leaves the verse list exactly as it was. -/
theorem verse_validation_before_mutation (verses : List OpeningVerse)
    (editingId : Option String) (fd : VerseFormData) (newId createdAt : String)
    (hbad : fd.day < 1 ∨ 10 < fd.day ∨ fd.text.trim = "" ∨ fd.author.trim = "") :
    (handleVerseSubmit verses editingId fd newId createdAt).1.isSome = true ∧
    (handleVerseSubmit verses editingId fd newId createdAt).2 = verses := by
  unfold handleVerseSubmit
  by_cases h1 : (fd.text.trim.isEmpty || fd.author.trim.isEmpty) = true
  · simp [h1]
  · have h1x := h1
    simp only [Bool.or_eq_true, String.isEmpty_iff] at h1x
    push_neg at h1x
    have hday : (decide (fd.day < 1) || decide (fd.day > 10)) = true := by
      rcases hbad with h | h | h | h
      · simp [h]
      · simp [h]
      · exact absurd h h1x.1
      · exact absurd h h1x.2
    simp [h1, hday]

/-- C6 witness: day 11 is rejected and creates nothing. -/
theorem verse_validation_before_mutation_witness :
    (handleVerseSubmit [] none ⟨"a verse line", "X", "English", 11⟩ "v1" "t").1.isSome = true ∧
    (handleVerseSubmit [] none ⟨"a verse line", "X", "English", 11⟩ "v1" "t").2 = [] :=
  verse_validation_before_mutation [] none ⟨"a verse line", "X", "English", 11⟩ "v1" "t"
    (by decide)

/-- C7: the araz upload respects the approval guard: on an unapproved target
it shows the conflict banner and mutates nothing; on an approved target it
succeeds, and every poem with the target id gets the corrected content and
the correction-done status. -/
theorem recordCorrection_requires_approved (poems : List Poem) (pid : String)
    (text : String) (file : Option String) (pa : Poem)
    (hfind : (poems.find? fun p => p.id == pid) = some pa)
    (hsupplied : (text.trim.isEmpty && file.isNone) = false) :
    (pa.approved = false →
      (handleArazUpload poems (some pid) text file).1
          = some "Cannot upload araz version. Nazm must be approved first." ∧
      (handleArazUpload poems (some pid) text file).2 = poems) ∧
    (pa.approved = true →
      (handleArazUpload poems (some pid) text file).1 = none ∧
      (∀ q ∈ (handleArazUpload poems (some pid) text file).2,
        q.id = pid → q.arazContent = some text ∧ q.status = "araz_done") ∧
      (∃ q ∈ (handleArazUpload poems (some pid) text file).2,
        q.id = pid ∧ q.arazContent = some text ∧ q.status = "araz_done")) := by
  have hid : pa.id = pid := by
    have := List.find?_some hfind
    simpa using this
  have hmem : pa ∈ poems := List.mem_of_find?_eq_some hfind
  constructor
  · intro hap
    have hre : handleArazUpload poems (some pid) text file
        = (some "Cannot upload araz version. Nazm must be approved first.", poems) := by
      unfold handleArazUpload
      simp [hsupplied, hfind, hap]
    rw [hre]
    exact ⟨rfl, rfl⟩
  · intro hap
    have hre : handleArazUpload poems (some pid) text file
        = (none, poems.map fun p =>
            if p.id == pid then
              { p with arazContent := some text, status := "araz_done" }
            else p) := by
      unfold handleArazUpload
      simp [hsupplied, hfind, hap]
    rw [hre]
    refine ⟨rfl, fun q hq hqid => ?_, ?_⟩
    · simp only [List.mem_map] at hq
      obtain ⟨r, hr, rfl⟩ := hq
      cases hb : (r.id == pid) with
      | true => simp [hb]
      | false =>
        simp only [hb, if_false, Bool.false_eq_true] at hqid ⊢
        exact absurd hqid (by simpa using hb)
    · refine ⟨{ pa with arazContent := some text, status := "araz_done" }, ?_,
        by simpa using hid, rfl, rfl⟩
      have : (fun p => if p.id == pid then
            { p with arazContent := some text, status := "araz_done" } else p) pa
          = { pa with arazContent := some text, status := "araz_done" } := by
        simp [hid]
      exact this ▸ List.mem_map_of_mem _ hmem

/-- C7 witness: an unapproved poem rejects the araz upload unchanged; an
approved poem gets the corrected content and the done status. -/
theorem recordCorrection_requires_approved_witness :
    let au : Author := ⟨"u1", "Ali"⟩
    let pu : Poem := ⟨"p1", "individual", some "an unapproved poem text", "English", "manual",
      au, "araz_pending", false, none, none, none, none, none, false, none, "d1"⟩
    let pq : Poem := ⟨"p2", "full", some "an approved poem text", "Urdu", "manual",
      au, "araz_pending", true, none, none, none, none, none, false, none, "d2"⟩
    ((handleArazUpload [pu] (some "p1") "corrected text" (some "araz.pdf")).1
        = some "Cannot upload araz version. Nazm must be approved first." ∧
     (handleArazUpload [pu] (some "p1") "corrected text" (some "araz.pdf")).2 = [pu]) ∧
    ((handleArazUpload [pq] (some "p2") "corrected text" (some "araz.pdf")).1 = none ∧
     ∀ q ∈ (handleArazUpload [pq] (some "p2") "corrected text" (some "araz.pdf")).2,
       q.id = "p2" → q.arazContent = some "corrected text" ∧ q.status = "araz_done") := by
  intro au pu pq
  refine ⟨(recordCorrection_requires_approved [pu] "p1" "corrected text" (some "araz.pdf") pu
    (by decide) (by simp)).1 rfl, ?_⟩
  have h := (recordCorrection_requires_approved [pq] "p2" "corrected text" (some "araz.pdf") pq
    (by decide) (by simp)).2 rfl
  exact ⟨h.1, h.2.1⟩

/-- C8: marking a poem back to pending rewrites only the status field of the
target: every other field of the target and every other poem of the list are
returned unchanged. -/
theorem markPending_frame (poems : List Poem) (poemId : String) (i : Nat) :
    (handleStatusUpdate poems poemId "araz_pending").length = poems.length ∧
    ∀ p, poems[i]? = some p →
      ∃ q, (handleStatusUpdate poems poemId "araz_pending")[i]? = some q ∧
        (p.id ≠ poemId → q = p) ∧
        q.id = p.id ∧ q.type = p.type ∧ q.content = p.content ∧ q.language = p.language ∧
        q.submissionMethod = p.submissionMethod ∧ q.author = p.author ∧
        q.approved = p.approved ∧ q.rating = p.rating ∧ q.fileName = p.fileName ∧
        q.audioFileName = p.audioFileName ∧ q.arazContent = p.arazContent ∧
        q.inspiredBy = p.inspiredBy ∧ q.featured = p.featured ∧
        q.featuredDate = p.featuredDate ∧ q.entryDate = p.entryDate ∧
        (p.id = poemId → q.status = "araz_pending") := by
  refine ⟨by simp [handleStatusUpdate], ?_⟩
  intro p hp
  have hq : (handleStatusUpdate poems poemId "araz_pending")[i]?
      = some ((fun poem =>
          if poem.id == poemId then { poem with status := "araz_pending" } else poem) p) := by
    unfold handleStatusUpdate
    rw [List.getElem?_map, hp]
    rfl
  refine ⟨_, hq, ?_⟩
  cases hb : (p.id == poemId) with
  | true =>
    have heq : p.id = poemId := by simpa using hb
    simp [hb, heq]
  | false =>
    have hne : p.id ≠ poemId := by simpa using hb
    simp [hb, hne]

/-- C8 witness: a two-poem list, the first poem marked back to pending. -/
theorem markPending_frame_witness :
    let au : Author := ⟨"u1", "Ali"⟩
    let p1 : Poem := ⟨"p1", "individual", some "first poem text", "English", "manual",
      au, "araz_done", true, some 4, none, none, some "fixed text", none, false, none, "d1"⟩
    let p2 : Poem := ⟨"p2", "full", some "second poem text", "Urdu", "manual",
      au, "araz_done", true, some 3, none, none, some "other text", none, false, none, "d2"⟩
    ∃ q, (handleStatusUpdate [p1, p2] "p1" "araz_pending")[0]? = some q ∧
      q.arazContent = p1.arazContent ∧ q.status = "araz_pending" := by
  intro au p1 p2
  obtain ⟨q, hq, -, -, -, -, -, -, -, -, -, -, -, haraz, -, -, -, -, hstat⟩ :=
    (markPending_frame [p1, p2] "p1" 0).2 p1 (by decide)
  exact ⟨q, hq, haraz, hstat rfl⟩

/-- C5 counterexample: the free-text filter keeps a poem whose content does
not contain the query, because the query matches the language field: the
claim that a poem matches exactly when its content contains the query
case-insensitively is false on this input. -/
theorem list_free_text_counterexample :
    let p : Poem := ⟨"p1", "individual", some "hello world of poetry", "Urdu", "manual",
      ⟨"u1", "Ali"⟩, "araz_pending", true, none, none, none, none, none, false, none, "d1"⟩
    searchEffect [p] "Urdu" = [p] ∧
    strIncludes (jsToLower "hello world of poetry") (jsToLower "Urdu") = false := by
  decide

/-- C5 amended: the dropdown filters are an AND of the supplied predicates
with the sentinel all matching everything, and the free-text filter keeps a
poem exactly when its content (non-null and non-empty) or its language
contains the query case-insensitively; an empty query matches everything. -/
theorem list_filter_semantics_amended (poems : List Poem) (sf tf lf q : String) (p : Poem) :
    (p ∈ filterEffect poems sf tf lf ↔
      p ∈ poems ∧ (sf = "all" ∨ p.status = sf) ∧ (tf = "all" ∨ p.type = tf) ∧
        (lf = "all" ∨ p.language = lf)) ∧
    (p ∈ searchEffect poems q ↔
      p ∈ poems ∧ (q = "" ∨
        (∃ c, p.content = some c ∧ c ≠ "" ∧ strIncludes (jsToLower c) (jsToLower q) = true) ∨
        strIncludes (jsToLower p.language) (jsToLower q) = true)) := by
  constructor
  · unfold filterEffect
    by_cases hsf : sf = "all" <;> by_cases htf : tf = "all" <;> by_cases hlf : lf = "all" <;>
      simp [hsf, htf, hlf, List.mem_filter, and_assoc] <;> tauto
  · unfold searchEffect
    by_cases hq : q = ""
    · subst hq
      have he : ("" : String).isEmpty = true := rfl
      simp [he]
    · have hqe : q.isEmpty = false := by
        rw [Bool.eq_false_iff]
        simp only [ne_eq, String.isEmpty_iff]
        exact hq
      simp only [hqe, Bool.false_eq_true, if_false, List.mem_filter]
      cases hc : p.content with
      | none => simp [searchMatch, hc, hq]
      | some c =>
        by_cases hce : c.isEmpty = true
        · have hcz : c = "" := by rwa [String.isEmpty_iff] at hce
          simp [searchMatch, hc, hce, hq, hcz, String.isEmpty_iff]
        · have hce2 : c.isEmpty = false := by
            rwa [Bool.eq_false_iff]
          have hcne : c ≠ "" := by
            intro h
            rw [h] at hce2
            exact absurd hce2 (by decide)
          simp [searchMatch, hc, hce2, hq, hcne]

/-- C10: an unrated poem is mapped to rating 0 by the admin review, admin
checking and best-poems mappings, so at the display interface it is
indistinguishable from a poem rated 0; and the best-poems pipeline keeps a
poem whose displayed rating is 0. -/
theorem unrated_poem_displayed_as_zero (ap ap0 : ApiPoem)
    (hn : ap.rating = none) (h0 : ap0.rating = some 0) :
    (adminReviewMap ap).rating = some 0 ∧
    (adminCheckingMap ap).rating = some 0 ∧
    (bestPoemsMap ap).rating = some 0 ∧
    displayRating (adminReviewMap ap).rating = displayRating (adminReviewMap ap0).rating ∧
    displayRating (adminCheckingMap ap).rating
      = displayRating (adminCheckingMap ap0).rating ∧
    bestPoemsFetch [ap0] = [bestPoemsMap ap0] ∧
    displayRating (bestPoemsMap ap0).rating = 0 := by
  refine ⟨?_, ?_, ?_, ?_, ?_, ?_, ?_⟩ <;>
    simp [adminReviewMap, adminCheckingMap, bestPoemsMap, displayRating, hn, h0,
      bestPoemsFetch, bestPoemsKeep, List.mergeSort_singleton]

/-- C10 witness: a concrete unrated poem and a concrete poem rated 0. -/
theorem unrated_poem_displayed_as_zero_witness :
    let apn : ApiPoem := ⟨"p1", "individual", some "a text", "English", "manual",
      "u1", "Ali", "araz_pending", true, none, none, none, none, none, false, none, "d1"⟩
    let ap0 : ApiPoem := ⟨"p2", "full", some "b text", "Urdu", "manual",
      "u2", "Hasan", "araz_done", true, some 0, none, none, none, none, false, none, "d2"⟩
    (adminReviewMap apn).rating = some 0 ∧
    displayRating (adminReviewMap apn).rating = displayRating (adminReviewMap ap0).rating ∧
    bestPoemsFetch [ap0] = [bestPoemsMap ap0] ∧
    displayRating (bestPoemsMap ap0).rating = 0 := by
  intro apn ap0
  have h := unrated_poem_displayed_as_zero apn ap0 rfl rfl
  exact ⟨h.1, h.2.2.2.1, h.2.2.2.2.2.1, h.2.2.2.2.2.2⟩
